import Mathlib

/-!
Shallow embedding of the recurring daily-task engine of the AI-Taskboard
repository (apps/main/models.py, apps/main/forms.py, apps/main/views.py).

Dates are modelled as integers counting days from a fixed Monday epoch, so
that `date.weekday()` (Monday = 0 .. Sunday = 6) becomes `d.emod 7`.
The `scheduled_days` JSON field may hold either integers or strings at the
Python level, so its elements are modelled by a `PyVal` sum type; the form
layer stores integers (`[int(day) for day in scheduled_days]`) and the
today-view membership test compares the *string* form of the weekday
against that list (`f"{today_weekday}" in (task.scheduled_days or [])`).
-/

namespace TaskBoard

/-- A JSON scalar as it can occur inside the `scheduled_days` JSONField:
a Python int or a Python str.  Python `in` compares with `==`, and an
int never equals a str, which `DecidableEq` on this type reproduces. -/
inductive PyVal where
  | pint (n : ℤ)
  | pstr (s : String)
deriving DecidableEq

/-- Python truthiness of a list: `xs or []` yields `xs` unless it is empty.
(models.py line 204 and views.py line 850 both guard with `or []`.) -/
def pyListOr (l d : List PyVal) : List PyVal :=
  if l = [] then d else l

/-- The `DailyTask` model (models.py lines 163-173), restricted to the
fields the daily-task engine reads.  `reminder_time` is seconds since
midnight; users are identified by their `BotUser` id. -/
structure DailyTask where
  id : ℕ
  title : String
  creator : ℕ
  assignees : List ℕ
  scheduled_days : List PyVal
  reminder_time : Option ℕ
  is_active : Bool
deriving DecidableEq

/-- The `DailyTaskCompletion` model (models.py lines 212-218). -/
structure CompletionRecord where
  daily_task : ℕ
  user : ℕ
  date : ℤ
  notes : String
  actual_minutes : Option ℕ
deriving DecidableEq

/-- The persistent store: `BotUser` rows (by id), `DailyTask` rows and
`DailyTaskCompletion` rows. -/
structure Store where
  botUsers : List ℕ
  dailyTasks : List DailyTask
  completions : List CompletionRecord
deriving DecidableEq

/-- `date.weekday()` for an integer day count with a Monday epoch:
Monday = 0 .. Sunday = 6. -/
def weekday (d : ℤ) : ℤ := d.emod 7

/-- models.py lines 201-204, `DailyTask.is_scheduled_today`:
`today = timezone.now().weekday(); return today in (self.scheduled_days or [])`.
The reference weekday is passed explicitly.  Note: the method does not
consult `is_active`. -/
def DailyTask.is_scheduled_today (t : DailyTask) (todayWeekday : ℤ) : Bool :=
  decide (PyVal.pint todayWeekday ∈ pyListOr t.scheduled_days [])

/-- views.py line 850, the due-today view's membership test:
`f"{today_weekday}" in (task.scheduled_days or [])` — the weekday is
interpolated into a *string* before the membership test. -/
def viewMembershipTest (t : DailyTask) (todayWeekday : ℤ) : Bool :=
  decide (PyVal.pstr (toString todayWeekday) ∈ pyListOr t.scheduled_days [])

/-- models.py lines 198-199: the `day_names` dict
`{0: 'Mon', 1: 'Tue', 2: 'Wed', 3: 'Thu', 4: 'Fri', 5: 'Sat', 6: 'Sun'}`;
a key outside 0-6 raises `KeyError` in Python, modelled by a junk string
(validation keeps stored days inside 0-6). -/
def dayName (d : ℤ) : String :=
  if d = 0 then "Mon" else if d = 1 then "Tue" else if d = 2 then "Wed"
  else if d = 3 then "Thu" else if d = 4 then "Fri" else if d = 5 then "Sat"
  else if d = 6 then "Sun" else "KeyError"

/-- models.py lines 193-199, `DailyTask.get_scheduled_days_display`, taken on
the validated integer representation the form layer stores:
empty list renders `"No days scheduled"`, otherwise the days are sorted
ascending, mapped through `day_names` and joined with `", "`. -/
def get_scheduled_days_display (scheduled_days : List ℤ) : String :=
  if scheduled_days = [] then "No days scheduled"
  else ", ".intercalate ((scheduled_days.insertionSort (· ≤ ·)).map dayName)

/-- models.py line 187: `valid_days = [0, 1, 2, 3, 4, 5, 6]`. -/
def valid_days : List PyVal :=
  [.pint 0, .pint 1, .pint 2, .pint 3, .pint 4, .pint 5, .pint 6]

/-- models.py lines 185-191, `DailyTask.clean`: walk `scheduled_days` and
raise `ValidationError` (error value = the offending element) at the first
element not among `valid_days`; otherwise validation passes.
(The `if self.scheduled_days:` guard is behaviourally the empty case.) -/
def cleanScheduledDays : List PyVal → Except PyVal Unit
  | [] => .ok ()
  | d :: rest => if d ∈ valid_days then cleanScheduledDays rest else .error d

/-- Python `int(s)` on a string of decimal digits (the form's cleaned
choice values are among "0".."6"). -/
def pyInt (s : String) : ℤ :=
  s.data.foldl (fun acc c => acc * 10 + ((c.toNat : ℤ) - 48)) 0

/-- forms.py lines 264-266, `DailyTaskForm.save`:
`instance.scheduled_days = [int(day) for day in scheduled_days]` where
`scheduled_days` is the cleaned `MultipleChoiceField` value, a list of
choice strings. -/
def formSaveScheduledDays (cleaned : List String) : List PyVal :=
  cleaned.map (fun s => PyVal.pint (pyInt s))

/-- forms.py lines 211-216: the `scheduled_days` `MultipleChoiceField` built
from `WEEKDAY_CHOICES`; a submitted value is valid iff it equals the string
form of one of the seven weekday codes. -/
def formChoiceValid (submitted : List String) : Bool :=
  submitted.all (fun s => s ∈ ["0", "1", "2", "3", "4", "5", "6"])

/-- Creating a `DailyTask` row with model validation (views daily_tasks_view
create path through the form, models.py `clean`): on a `ValidationError`
nothing is written; otherwise the task row is appended. -/
def createDailyTask (s : Store) (t : DailyTask) : Except PyVal Store :=
  match cleanScheduledDays t.scheduled_days with
  | .error e => .error e
  | .ok _ => .ok { s with dailyTasks := s.dailyTasks ++ [t] }

/-- views.py lines 883-888 completion filter specialised to a (task, user)
pair: `DailyTaskCompletion.objects.filter(daily_task=..., user=...)`. -/
def completionsOf (s : Store) (tid uid : ℕ) : List CompletionRecord :=
  s.completions.filter (fun r => decide (r.daily_task = tid) && decide (r.user = uid))

/-- The dates of a (task, user) pair's completion records, as a set —
what the per-day `.exists()` query of the streak loop consults. -/
def completionDates (s : Store) (tid uid : ℕ) : Finset ℤ :=
  ((completionsOf s tid uid).map (fun r => r.date)).toFinset

/-- views.py lines 937-950 (and the same shape at lines 159-172):
`streak = 0; current_date = today; while True: if <record exists for
current_date>: streak += 1; current_date -= timedelta(days=1) else: break`.
`ledger` is the set of dates that have a record. -/
def streakScan (ledger : Finset ℤ) (d : ℤ) : ℕ :=
  if d ∈ ledger then streakScan ledger (d - 1) + 1 else 0
termination_by (ledger.filter (· ≤ d)).card
decreasing_by
  apply Finset.card_lt_card
  constructor
  · intro x hx
    simp only [Finset.mem_filter] at hx ⊢
    exact ⟨hx.1, by omega⟩
  · intro hsub
    have hd : d ∈ ledger.filter (· ≤ d) := Finset.mem_filter.mpr ⟨by assumption, le_refl d⟩
    have := hsub hd
    simp only [Finset.mem_filter] at this
    omega

/-- The detail view's per-task current streak (views.py lines 937-950),
scanning backward from `today` over this user's completion dates. -/
def detailViewStreak (s : Store) (tid uid : ℕ) (today : ℤ) : ℕ :=
  streakScan (completionDates s tid uid) today

/-- Sort key of views.py line 854:
`key=lambda x: (x.reminder_time or time(23, 59), x.title)` —
a missing reminder time is replaced by 23:59:00 (86340 seconds). -/
def sortKey (t : DailyTask) : ℕ × String :=
  (t.reminder_time.getD 86340, t.title)

/-- Python tuple comparison of the sort keys: lexicographic on
(reminder seconds, title), titles compared lexicographically by
code point (`String.data`). -/
def keyLe (a b : DailyTask) : Prop :=
  (sortKey a).1 < (sortKey b).1 ∨
    ((sortKey a).1 = (sortKey b).1 ∧ (sortKey a).2.data ≤ (sortKey b).2.data)

instance : DecidableRel keyLe := fun a b => by
  unfold keyLe
  infer_instance

instance : IsTotal DailyTask keyLe where
  total a b := by
    unfold keyLe
    rcases lt_trichotomy (sortKey a).1 (sortKey b).1 with h | h | h
    · exact Or.inl (Or.inl h)
    · rcases le_total (sortKey a).2.data (sortKey b).2.data with h2 | h2
      · exact Or.inl (Or.inr ⟨h, h2⟩)
      · exact Or.inr (Or.inr ⟨h.symm, h2⟩)
    · exact Or.inr (Or.inl h)

instance : IsTrans DailyTask keyLe where
  trans a b c hab hbc := by
    unfold keyLe at hab hbc ⊢
    rcases hab with h1 | ⟨h1, h1t⟩ <;> rcases hbc with h2 | ⟨h2, h2t⟩
    · exact Or.inl (lt_trans h1 h2)
    · exact Or.inl (h2 ▸ h1)
    · exact Or.inl (h1 ▸ h2)
    · exact Or.inr ⟨h1.trans h2, le_trans h1t h2t⟩

/-- views.py line 854: `today_tasks.sort(key=...)` — a stable sort by
`sortKey` (Python's `list.sort`). -/
def sortTodayTasks (l : List DailyTask) : List DailyTask :=
  l.insertionSort keyLe

/-- views.py lines 829-838: look up the requesting user's `BotUser` row and
create one if absent (`BotUser.objects.create(...)` on `DoesNotExist`). -/
def ensureBotUser (s : Store) (uid : ℕ) : Store :=
  if uid ∈ s.botUsers then s else { s with botUsers := s.botUsers ++ [uid] }

/-- views.py lines 829-861, the read path of `daily_tasks_today_view`:
get-or-create the `BotUser`, filter the user's active tasks, keep those
whose membership test passes for today's weekday, sort them, and collect
the ids already completed today.  Returns (today's task list, completed
task ids, resulting store). -/
def dailyTasksTodayGet (s : Store) (uid : ℕ) (today : ℤ) :
    List DailyTask × List ℕ × Store :=
  let s1 := ensureBotUser s uid
  let todayWeekday := weekday today
  let allTasks := s1.dailyTasks.filter
    (fun t => t.is_active && (decide (t.creator = uid) || decide (uid ∈ t.assignees)))
  let todayTasks := sortTodayTasks (allTasks.filter (fun t => viewMembershipTest t todayWeekday))
  let todayIds : List ℕ := todayTasks.map (fun t => t.id)
  let completedToday := (s1.completions.filter
    (fun r => decide (r.daily_task ∈ todayIds) &&
      decide (r.user = uid) && decide (r.date = today))).map (fun r => r.daily_task)
  (todayTasks, completedToday, s1)

/-- Outcome of the completion POST handler. -/
inductive CompleteOutcome where
  | created
  | alreadyCompleted
  | permissionDenied
  | notFound
deriving DecidableEq

/-- views.py lines 870-891, the `complete_task` POST handler: fetch the task
by id (`DoesNotExist` → not found), check the permission
(`creator == bot_user or bot_user in assignees`), report already-completed
when a record for (task, user, today) exists, otherwise create the record. -/
def completeTask (s : Store) (tid uid : ℕ) (today : ℤ) (notes : String)
    (mins : Option ℕ) : CompleteOutcome × Store :=
  match s.dailyTasks.find? (fun t => decide (t.id = tid)) with
  | none => (.notFound, s)
  | some t =>
    if t.creator = uid ∨ uid ∈ t.assignees then
      if (s.completions.filter (fun r => decide (r.daily_task = tid) &&
          decide (r.user = uid) && decide (r.date = today))) ≠ [] then
        (.alreadyCompleted, s)
      else
        (.created, { s with completions :=
          s.completions ++ [⟨tid, uid, today, notes, mins⟩] })
    else (.permissionDenied, s)

/-- The number of records the store holds for one (task, user, date) triple. -/
def countTriple (s : Store) (tid uid : ℕ) (d : ℤ) : ℕ :=
  (s.completions.filter (fun r => decide (r.daily_task = tid) &&
    decide (r.user = uid) && decide (r.date = d))).length

/-- views.py lines 955-960: walk the calendar dates from `a` to `b`
inclusive and collect those whose weekday is in `scheduled_days`
(`current_date.weekday() in daily_task.scheduled_days`). -/
def scheduledDatesInWindow (days : List PyVal) (a b : ℤ) : List ℤ :=
  ((List.range (b + 1 - a).toNat).map (fun i : ℕ => a + (i : ℤ))).filter
    (fun d => decide (PyVal.pint (weekday d) ∈ days))

/-- views.py lines 930-934 with line 936: the completion history query
`filter(daily_task=..., user=...)[:30]` is capped at 30 rows, so
`total_completions = completions.count()` is `min(#records, 30)`. -/
def totalCompletions (s : Store) (tid uid : ℕ) : ℕ :=
  min (completionsOf s tid uid).length 30

/-- Python `round(x)` (banker's rounding, ties to the even integer),
taken on exact rationals. -/
def roundHalfEven (q : ℚ) : ℤ :=
  let f := ⌊q⌋
  if q - f < 1/2 then f
  else if 1/2 < q - f then f + 1
  else if f % 2 = 0 then f else f + 1

/-- Python `round(x, 1)` on exact rationals. -/
def pyRound1 (q : ℚ) : ℚ := (roundHalfEven (10 * q) : ℚ) / 10

/-- views.py lines 953-962 and 969: the detail view's 30-day completion
rate: S = scheduled dates in [today-30, today], C = `total_completions`
(all records for the task/user, capped at 30 — not restricted to the
window), rate = C / S × 100 or 0 when S = 0, rounded to one decimal. -/
def detailViewCompletionRate (s : Store) (t : DailyTask) (uid : ℕ)
    (today : ℤ) : ℚ :=
  let sched := scheduledDatesInWindow t.scheduled_days (today - 30) today
  pyRound1 (if sched = [] then 0
    else (totalCompletions s t.id uid : ℚ) / sched.length * 100)

/-- Modelled from the spec: `completion_rate(task, window_start, window_end)`
as §4.4 words it, with C counting only the records whose date lies in the
window.  Kept for comparison with `detailViewCompletionRate`. -/
def specCompletionRate (s : Store) (tid uid : ℕ) (a b : ℤ)
    (days : List PyVal) : ℚ :=
  let S := ((Finset.Icc a b).filter (fun d => PyVal.pint (weekday d) ∈ days)).card
  let C := (s.completions.filter (fun r => decide (r.daily_task = tid) &&
    decide (r.user = uid) && decide (a ≤ r.date) && decide (r.date ≤ b))).length
  if S = 0 then 0 else pyRound1 ((C : ℚ) / S * 100)

/-! Concrete fixtures used by counterexamples and witnesses. -/

/-- A task scheduled Mon/Wed/Fri (form-stored integers) that is inactive. -/
def inactiveTask : DailyTask :=
  ⟨1, "water plants", 1, [], [.pint 0, .pint 2, .pint 4, .pint 5], none, false⟩

/-- An active task scheduled Mon/Wed/Fri/Sat (form-stored integers). -/
def activeTask : DailyTask :=
  ⟨1, "water plants", 1, [], [.pint 0, .pint 2, .pint 4, .pint 5], none, true⟩

/-- Store for the streak scenario: one Mon/Wed/Fri task, completions on the
most recent Mon (day 0), Wed (day 2) and Fri (day 4); day 5 is Saturday. -/
def mwfStore : Store :=
  ⟨[1], [⟨1, "gym", 1, [], [.pint 0, .pint 2, .pint 4], none, true⟩],
    [⟨1, 1, 0, "", none⟩, ⟨1, 1, 2, "", none⟩, ⟨1, 1, 4, "", none⟩]⟩

/-- Same scenario with the Wednesday completion missing. -/
def mwfStoreNoWed : Store :=
  ⟨[1], [⟨1, "gym", 1, [], [.pint 0, .pint 2, .pint 4], none, true⟩],
    [⟨1, 1, 0, "", none⟩, ⟨1, 1, 4, "", none⟩]⟩

/-- Completions on three consecutive calendar days ending Saturday. -/
def consecStore : Store :=
  ⟨[1], [⟨1, "gym", 1, [], [.pint 0, .pint 2, .pint 4], none, true⟩],
    [⟨1, 1, 3, "", none⟩, ⟨1, 1, 4, "", none⟩, ⟨1, 1, 5, "", none⟩]⟩

/-- A task with no reminder time and title "a". -/
def noReminderTask : DailyTask := ⟨1, "a", 1, [], [.pint 0], none, true⟩

/-- A task with reminder time 23:59:59 and title "b". -/
def lateReminderTask : DailyTask := ⟨2, "b", 1, [], [.pint 0], some 86399, true⟩

/-- A task with reminder time 01:00:00 and title "c". -/
def earlyReminderTask : DailyTask := ⟨3, "c", 1, [], [.pint 0], some 3600, true⟩

/-- A task whose scheduled-weekday list is empty. -/
def noScheduleTask : DailyTask := ⟨4, "d", 1, [], [], none, true⟩

/-- A task scheduled on all seven weekdays. -/
def everyDayTask : DailyTask :=
  ⟨1, "journal", 1, [],
    [.pint 0, .pint 1, .pint 2, .pint 3, .pint 4, .pint 5, .pint 6], none, true⟩

/-- Store for the completion-rate counterexample: a task scheduled every
weekday, one completion dated far outside the 30-day window. -/
def staleStore : Store :=
  ⟨[1], [everyDayTask], [⟨1, 1, -100, "", none⟩]⟩

/-! ### Helper lemmas -/

theorem display_eq_of_perm (l₁ l₂ : List ℤ) (hp : l₁.Perm l₂) :
    get_scheduled_days_display l₁ = get_scheduled_days_display l₂ := by
  have hs : l₁.insertionSort (· ≤ ·) = l₂.insertionSort (· ≤ ·) :=
    List.eq_of_perm_of_sorted
      ((List.perm_insertionSort _ l₁).trans (hp.trans (List.perm_insertionSort _ l₂).symm))
      (List.sorted_insertionSort _ _) (List.sorted_insertionSort _ _)
  have hlen := hp.length_eq
  unfold get_scheduled_days_display
  rcases Decidable.em (l₁ = []) with h1 | h1
  · have h2 : l₂ = [] := by
      subst h1
      exact List.length_eq_zero.mp (by simpa using hlen.symm)
    rw [if_pos h1, if_pos h2]
  · have h2 : l₂ ≠ [] := by
      intro h
      apply h1
      subst h
      exact List.length_eq_zero.mp (by simpa using hlen)
    rw [if_neg h1, if_neg h2, hs]

theorem mem_valid_days (d : PyVal) :
    d ∈ valid_days ↔ ∃ n : ℤ, 0 ≤ n ∧ n ≤ 6 ∧ d = PyVal.pint n := by
  cases d with
  | pint n =>
    simp only [valid_days, List.mem_cons, List.not_mem_nil, or_false, PyVal.pint.injEq]
    constructor
    · rintro (h | h | h | h | h | h | h) <;> exact ⟨n, by omega, by omega, rfl⟩
    · rintro ⟨m, h0, h6, h⟩
      omega
  | pstr s =>
    simp [valid_days]

theorem clean_ok_iff (days : List PyVal) :
    cleanScheduledDays days = .ok () ↔ ∀ d ∈ days, d ∈ valid_days := by
  induction days with
  | nil => simp [cleanScheduledDays]
  | cons d rest ih =>
    rw [cleanScheduledDays]
    rcases Decidable.em (d ∈ valid_days) with h | h
    · rw [if_pos h]
      simp [h, ih]
    · rw [if_neg h]
      simp [h]

theorem clean_error_or_ok (days : List PyVal) :
    cleanScheduledDays days = .ok () ∨ ∃ e, cleanScheduledDays days = .error e := by
  cases h : cleanScheduledDays days with
  | ok u => cases u; exact Or.inl rfl
  | error e => exact Or.inr ⟨e, rfl⟩

theorem pyInt_toString (d : ℤ) (h0 : 0 ≤ d) (h6 : d ≤ 6) : pyInt (toString d) = d := by
  interval_cases d <;> decide

theorem streakScan_le_filter (ledger : Finset ℤ) (d : ℤ) :
    streakScan ledger d ≤ (ledger.filter (· ≤ d)).card := by
  induction d using streakScan.induct ledger with
  | case1 d hmem ih =>
    rw [streakScan, if_pos hmem]
    have hlt : (ledger.filter (· ≤ d - 1)).card < (ledger.filter (· ≤ d)).card := by
      apply Finset.card_lt_card
      constructor
      · intro x hx
        simp only [Finset.mem_filter] at hx ⊢
        exact ⟨hx.1, by omega⟩
      · intro hsub
        have hd : d ∈ ledger.filter (· ≤ d) := Finset.mem_filter.mpr ⟨hmem, le_refl d⟩
        have := hsub hd
        simp only [Finset.mem_filter] at this
        omega
    omega
  | case2 d hmem =>
    rw [streakScan, if_neg hmem]
    omega

/-! ### Claim theorems -/

/-- C10: for every finite completion ledger and starting date, the backward
streak scan (while a record exists for the current date, count it and step
one day back) terminates — it is a total function here, witnessed by the
decreasing measure — and its value is at most the number of records:
both for an abstract ledger of dates and for the detail view's scan over a
store's completion rows. -/
theorem C10_streak_scan_bounded :
    (∀ (ledger : Finset ℤ) (d : ℤ), streakScan ledger d ≤ ledger.card) ∧
    (∀ (s : Store) (tid uid : ℕ) (today : ℤ),
      detailViewStreak s tid uid today ≤ (completionsOf s tid uid).length) := by
  have hscan : ∀ (ledger : Finset ℤ) (d : ℤ), streakScan ledger d ≤ ledger.card :=
    fun ledger d => le_trans (streakScan_le_filter ledger d)
      (Finset.card_le_card (Finset.filter_subset _ _))
  refine ⟨hscan, fun s tid uid today => ?_⟩
  calc detailViewStreak s tid uid today ≤ (completionDates s tid uid).card :=
        hscan _ _
    _ ≤ ((completionsOf s tid uid).map (fun r => r.date)).length :=
        List.toFinset_card_le _
    _ = (completionsOf s tid uid).length := List.length_map _ _

/-- C2, counterexample: in the Mon/Wed/Fri scenario (completions on the most
recent Mon, Wed, Fri; reference date the following Saturday) the per-task
current streak of the detail view evaluates to 0, not 3; with the
Wednesday record absent it also evaluates to 0, not 1. -/
theorem C2_counterexample :
    detailViewStreak mwfStore 1 1 5 = 0 ∧ detailViewStreak mwfStore 1 1 5 ≠ 3 ∧
    detailViewStreak mwfStoreNoWed 1 1 5 = 0 ∧
    detailViewStreak mwfStoreNoWed 1 1 5 ≠ 1 := by
  have h1 : completionDates mwfStore 1 1 = ({0, 2, 4} : Finset ℤ) := by decide
  have h2 : completionDates mwfStoreNoWed 1 1 = ({0, 4} : Finset ℤ) := by decide
  have z1 : streakScan ({0, 2, 4} : Finset ℤ) 5 = 0 := by
    rw [streakScan]
    norm_num
  have z2 : streakScan ({0, 4} : Finset ℤ) 5 = 0 := by
    rw [streakScan]
    norm_num
  unfold detailViewStreak
  rw [h1, h2, z1, z2]
  norm_num

/-- C2, amended: the detail view's streak scan is not schedule-aware; it
counts consecutive *calendar* days with a completion, ending at the
reference date.  In both Mon/Wed/Fri scenarios it returns 0 (Saturday
itself has no completion), while three completions on the three
consecutive days ending Saturday give 3. -/
theorem C2_amended :
    detailViewStreak mwfStore 1 1 5 = 0 ∧
    detailViewStreak mwfStoreNoWed 1 1 5 = 0 ∧
    detailViewStreak consecStore 1 1 5 = 3 := by
  have h1 : completionDates mwfStore 1 1 = ({0, 2, 4} : Finset ℤ) := by decide
  have h2 : completionDates mwfStoreNoWed 1 1 = ({0, 4} : Finset ℤ) := by decide
  have h3 : completionDates consecStore 1 1 = ({3, 4, 5} : Finset ℤ) := by decide
  unfold detailViewStreak
  rw [h1, h2, h3]
  refine ⟨by rw [streakScan]; norm_num, by rw [streakScan]; norm_num, ?_⟩
  rw [streakScan]
  norm_num
  rw [streakScan]
  norm_num
  rw [streakScan]
  norm_num
  rw [streakScan]
  norm_num

/-- C7: the human-readable schedule description depends only on the weekday
set (not on insertion order), renders the set `{1, 3, 5}` as
"Tue, Thu, Sat", and renders the empty set as "No days scheduled". -/
theorem C7_describe_schedule :
    (∀ l₁ l₂ : List ℤ, l₁.Nodup → l₂.Nodup → l₁.toFinset = l₂.toFinset →
      get_scheduled_days_display l₁ = get_scheduled_days_display l₂) ∧
    (∀ l : List ℤ, l.Nodup → l.toFinset = {1, 3, 5} →
      get_scheduled_days_display l = "Tue, Thu, Sat") ∧
    get_scheduled_days_display [] = "No days scheduled" := by
  refine ⟨?_, ?_, by decide⟩
  · intro l₁ l₂ h₁ h₂ h
    exact display_eq_of_perm l₁ l₂ (List.perm_of_nodup_nodup_toFinset_eq h₁ h₂ h)
  · intro l hl h
    have he : get_scheduled_days_display l = get_scheduled_days_display [1, 3, 5] :=
      display_eq_of_perm l [1, 3, 5]
        (List.perm_of_nodup_nodup_toFinset_eq hl (by decide) (by rw [h]; decide))
    rw [he]
    decide

/-- C7 witness: the set {1,3,5} presented in reversed insertion order still
renders canonically. -/
theorem C7_witness : get_scheduled_days_display [5, 3, 1] = "Tue, Thu, Sat" :=
  C7_describe_schedule.2.1 [5, 3, 1] (by decide) (by decide)

/-- C8: model validation of a new schedule raises `ValidationError` iff the
scheduled-weekday list holds a value other than an integer 0..6; a schedule
whose values are all integer weekday codes is created (the row is appended),
and a violating schedule is rejected with the store left unwritten. -/
theorem C8_weekday_validation : ∀ (st : Store) (t : DailyTask),
    ((∃ e, cleanScheduledDays t.scheduled_days = .error e) ↔
      ∃ d ∈ t.scheduled_days, ¬∃ n : ℤ, 0 ≤ n ∧ n ≤ 6 ∧ d = PyVal.pint n) ∧
    ((∀ d ∈ t.scheduled_days, ∃ n : ℤ, 0 ≤ n ∧ n ≤ 6 ∧ d = PyVal.pint n) →
      createDailyTask st t = .ok { st with dailyTasks := st.dailyTasks ++ [t] }) ∧
    (∀ e, cleanScheduledDays t.scheduled_days = .error e →
      createDailyTask st t = .error e) := by
  intro st t
  have hne : (∃ e, cleanScheduledDays t.scheduled_days = .error e) ↔
      ¬(cleanScheduledDays t.scheduled_days = .ok ()) := by
    constructor
    · rintro ⟨e, he⟩ hok
      rw [hok] at he
      exact Except.noConfusion he
    · intro hnok
      rcases clean_error_or_ok t.scheduled_days with hok | he
      · exact absurd hok hnok
      · exact he
  refine ⟨?_, ?_, ?_⟩
  · rw [hne, clean_ok_iff]
    have hpn : ¬(∀ d ∈ t.scheduled_days, d ∈ valid_days) ↔
        ∃ d ∈ t.scheduled_days, d ∉ valid_days := by
      push_neg
      exact Iff.rfl
    rw [hpn]
    constructor
    · rintro ⟨d, hd, hnv⟩
      exact ⟨d, hd, fun hex => hnv ((mem_valid_days d).mpr hex)⟩
    · rintro ⟨d, hd, hnv⟩
      exact ⟨d, hd, fun hv => hnv ((mem_valid_days d).mp hv)⟩
  · intro hall
    have hok : cleanScheduledDays t.scheduled_days = .ok () :=
      (clean_ok_iff _).mpr (fun d hd => (mem_valid_days d).mpr (hall d hd))
    unfold createDailyTask
    rw [hok]
  · intro e he
    unfold createDailyTask
    rw [he]

/-- C8 witness: the valid schedule {0,6} is created and appended; the
invalid value 7 is rejected as a `ValidationError` with no write. -/
theorem C8_weekday_validation_witness :
    createDailyTask ⟨[], [], []⟩ ⟨1, "t", 1, [], [.pint 0, .pint 6], none, true⟩ =
      .ok ⟨[], [⟨1, "t", 1, [], [.pint 0, .pint 6], none, true⟩], []⟩ ∧
    createDailyTask ⟨[], [], []⟩ ⟨2, "u", 1, [], [.pint 7], none, true⟩ =
      .error (.pint 7) :=
  ⟨(C8_weekday_validation ⟨[], [], []⟩ ⟨1, "t", 1, [], [.pint 0, .pint 6], none, true⟩).2.1
      (by
        intro d hd
        fin_cases hd
        · exact ⟨0, by norm_num⟩
        · exact ⟨6, by norm_num⟩),
   (C8_weekday_validation ⟨[], [], []⟩ ⟨2, "u", 1, [], [.pint 7], none, true⟩).2.2
      (.pint 7) rfl⟩

/-- C9: storing a schedule through the form (choice strings converted with
`int(...)`) and reloading it yields exactly the submitted weekday set:
membership round-trips for every weekday list with entries in 0..6,
independent of the order in which the days were supplied. -/
theorem C9_schedule_roundtrip : ∀ (l : List ℤ), (∀ d ∈ l, 0 ≤ d ∧ d ≤ 6) →
    ∀ n : ℤ, (PyVal.pint n ∈ formSaveScheduledDays (l.map toString) ↔ n ∈ l) := by
  intro l hvalid n
  unfold formSaveScheduledDays
  rw [List.map_map]
  constructor
  · intro h
    rcases List.mem_map.mp h with ⟨d, hd, heq⟩
    simp only [Function.comp_apply] at heq
    rw [pyInt_toString d (hvalid d hd).1 (hvalid d hd).2] at heq
    rcases heq with heq
    cases heq
    exact hd
  · intro h
    apply List.mem_map.mpr
    refine ⟨n, h, ?_⟩
    simp only [Function.comp_apply]
    rw [pyInt_toString n (hvalid n h).1 (hvalid n h).2]

/-- C9 witness: the set {0,6} submitted in the order [6, 0] round-trips. -/
theorem C9_schedule_roundtrip_witness :
    (PyVal.pint 6 ∈ formSaveScheduledDays (([6, 0] : List ℤ).map toString)) ↔
      (6 : ℤ) ∈ ([6, 0] : List ℤ) :=
  C9_schedule_roundtrip [6, 0] (by decide) 6

/-- C1, counterexample: an inactive task whose schedule contains today's
weekday still answers `true` from the model due-check (the claim requires
`false` for every inactive task), and an active task whose integer-stored
schedule contains today's weekday answers `false` from the due-today
view's membership test (the claim requires `true`). -/
theorem C1_counterexample :
    inactiveTask.is_active = false ∧ inactiveTask.is_scheduled_today 5 = true ∧
    activeTask.is_active = true ∧ PyVal.pint 5 ∈ activeTask.scheduled_days ∧
    viewMembershipTest activeTask 5 = false := by decide

/-- C1, amended: the model due-check returns true iff the weekday is in the
scheduled set, ignoring the active flag (activeness is enforced only by the
view's query filter); the view's membership test compares the *string* form
of the weekday with the stored values and therefore returns false for every
schedule stored as integers, as the form layer stores them. -/
theorem C1_amended : ∀ (t : DailyTask) (w : ℤ),
    (t.is_scheduled_today w = true ↔ PyVal.pint w ∈ t.scheduled_days) ∧
    ((∀ v ∈ t.scheduled_days, ∃ n : ℤ, v = PyVal.pint n) →
      viewMembershipTest t w = false) := by
  intro t w
  constructor
  · unfold DailyTask.is_scheduled_today pyListOr
    rcases Decidable.em (t.scheduled_days = []) with h | h
    · rw [if_pos h, h]
      simp
    · rw [if_neg h]
      simp
  · intro hall
    unfold viewMembershipTest pyListOr
    rcases Decidable.em (t.scheduled_days = []) with h | h
    · rw [if_pos h]
      simp
    · rw [if_neg h]
      simp only [decide_eq_false_iff_not]
      intro hmem
      rcases hall _ hmem with ⟨n, hn⟩
      exact PyVal.noConfusion hn

/-- C1 witness: the amended statement applied to the active Mon/Wed/Fri/Sat
task on Saturday. -/
theorem C1_amended_witness :
    (activeTask.is_scheduled_today 5 = true ↔ PyVal.pint 5 ∈ activeTask.scheduled_days) ∧
    viewMembershipTest activeTask 5 = false :=
  ⟨(C1_amended activeTask 5).1,
   (C1_amended activeTask 5).2 (by
      intro v hv
      fin_cases hv
      · exact ⟨0, rfl⟩
      · exact ⟨2, rfl⟩
      · exact ⟨4, rfl⟩
      · exact ⟨5, rfl⟩)⟩

/-- C4: completing the same (task, user, date) twice leaves exactly one
completion record for the triple: under a present task, a permitted user
and no pre-existing record, the first call creates the record (appending
it, touching nothing else), the second call reports already-completed,
creates no row and leaves the store exactly as the first call left it. -/
theorem C4_complete_idempotent :
    ∀ (s : Store) (tid uid : ℕ) (d : ℤ) (notes : String) (mins : Option ℕ)
      (t : DailyTask),
      s.dailyTasks.find? (fun x => decide (x.id = tid)) = some t →
      (t.creator = uid ∨ uid ∈ t.assignees) →
      countTriple s tid uid d = 0 →
      (completeTask s tid uid d notes mins).1 = .created ∧
      (completeTask s tid uid d notes mins).2.completions =
        s.completions ++ [⟨tid, uid, d, notes, mins⟩] ∧
      (completeTask s tid uid d notes mins).2.dailyTasks = s.dailyTasks ∧
      (completeTask s tid uid d notes mins).2.botUsers = s.botUsers ∧
      countTriple (completeTask s tid uid d notes mins).2 tid uid d = 1 ∧
      (completeTask (completeTask s tid uid d notes mins).2 tid uid d notes mins).1 =
        .alreadyCompleted ∧
      (completeTask (completeTask s tid uid d notes mins).2 tid uid d notes mins).2 =
        (completeTask s tid uid d notes mins).2 := by
  intro s tid uid d notes mins t hfind hperm hcount
  have hfilter : s.completions.filter (fun r => decide (r.daily_task = tid) &&
      decide (r.user = uid) && decide (r.date = d)) = [] :=
    List.length_eq_zero.mp hcount
  have hstep1 : completeTask s tid uid d notes mins =
      (.created, { s with completions := s.completions ++ [⟨tid, uid, d, notes, mins⟩] }) := by
    unfold completeTask
    rw [hfind]
    simp only [hperm, if_pos, hfilter, ne_eq, not_true_eq_false, if_false, if_pos hperm]
  set s1 : Store := { s with completions := s.completions ++ [⟨tid, uid, d, notes, mins⟩] }
    with hs1
  have hfilter1 : s1.completions.filter (fun r => decide (r.daily_task = tid) &&
      decide (r.user = uid) && decide (r.date = d)) = [⟨tid, uid, d, notes, mins⟩] := by
    rw [hs1]
    simp only [List.filter_append, hfilter]
    rw [List.nil_append, List.filter]
    simp
  have hstep2 : completeTask s1 tid uid d notes mins = (.alreadyCompleted, s1) := by
    unfold completeTask
    have hfind1 : s1.dailyTasks.find? (fun x => decide (x.id = tid)) = some t := hfind
    rw [hfind1]
    simp only [hfilter1, if_pos hperm]
    rw [if_pos (by simp)]
  rw [hstep1]
  refine ⟨rfl, rfl, rfl, rfl, ?_, ?_, ?_⟩
  · unfold countTriple
    rw [hfilter1]
    rfl
  · rw [hstep2]
  · rw [hstep2]

/-- C4 witness: the double completion at a concrete store with one task,
one permitted user and an empty ledger. -/
theorem C4_complete_idempotent_witness :
    (completeTask ⟨[1], [activeTask], []⟩ 1 1 5 "" none).1 = .created ∧
    (completeTask ⟨[1], [activeTask], []⟩ 1 1 5 "" none).2.completions =
      [⟨1, 1, 5, "", none⟩] ∧
    (completeTask ⟨[1], [activeTask], []⟩ 1 1 5 "" none).2.dailyTasks = [activeTask] ∧
    (completeTask ⟨[1], [activeTask], []⟩ 1 1 5 "" none).2.botUsers = [1] ∧
    countTriple (completeTask ⟨[1], [activeTask], []⟩ 1 1 5 "" none).2 1 1 5 = 1 ∧
    (completeTask (completeTask ⟨[1], [activeTask], []⟩ 1 1 5 "" none).2 1 1 5 "" none).1 =
      .alreadyCompleted ∧
    (completeTask (completeTask ⟨[1], [activeTask], []⟩ 1 1 5 "" none).2 1 1 5 "" none).2 =
      (completeTask ⟨[1], [activeTask], []⟩ 1 1 5 "" none).2 :=
  C4_complete_idempotent ⟨[1], [activeTask], []⟩ 1 1 5 "" none activeTask
    (by decide) (Or.inl (by decide)) (by decide)

/-- C5, counterexample: the sort key replaces a missing reminder time by
23:59:00, so a task with reminder time 23:59:59 sorts *after* a task with
no reminder at all — the claim that every task lacking a reminder is
placed after every task that has one fails. -/
theorem C5_counterexample :
    sortTodayTasks [lateReminderTask, noReminderTask] =
      [noReminderTask, lateReminderTask] ∧
    noReminderTask.reminder_time = none ∧
    lateReminderTask.reminder_time = some 86399 := by decide

/-- C5, amended: the due-today list is sorted lexicographically by
(reminder time with missing values replaced by 23:59:00, then title) and is
a permutation of the filtered tasks; tasks lacking a reminder time all come
after tasks that have one provided every present reminder time is strictly
earlier than 23:59:00 (otherwise a late-reminder task can sort after a
no-reminder task). -/
theorem C5_amended : ∀ l : List DailyTask,
    List.Sorted keyLe (sortTodayTasks l) ∧
    (sortTodayTasks l).Perm l ∧
    ((∀ t ∈ l, ∀ r, t.reminder_time = some r → r < 86340) →
      (sortTodayTasks l).Pairwise
        (fun a b => a.reminder_time = none → b.reminder_time = none)) := by
  intro l
  refine ⟨List.sorted_insertionSort keyLe l, List.perm_insertionSort keyLe l, ?_⟩
  intro hall
  have hs : (sortTodayTasks l).Pairwise keyLe := List.sorted_insertionSort keyLe l
  refine List.Pairwise.imp_of_mem ?_ hs
  intro a b ha hb hab hanone
  have hbl : b ∈ l := (List.perm_insertionSort keyLe l).subset hb
  cases hbr : b.reminder_time with
  | none => rfl
  | some r =>
    exfalso
    have hr : r < 86340 := hall b hbl r hbr
    unfold keyLe sortKey at hab
    rw [hanone, hbr] at hab
    simp only [Option.getD_none, Option.getD_some] at hab
    rcases hab with hab | ⟨hab, _⟩ <;> omega

/-- C5 witness: the amended statement applied to a two-task list whose only
present reminder is earlier than 23:59. -/
theorem C5_amended_witness :
    List.Sorted keyLe (sortTodayTasks [noReminderTask, earlyReminderTask]) ∧
    (sortTodayTasks [noReminderTask, earlyReminderTask]).Perm
      [noReminderTask, earlyReminderTask] ∧
    (sortTodayTasks [noReminderTask, earlyReminderTask]).Pairwise
      (fun a b => a.reminder_time = none → b.reminder_time = none) :=
  ⟨(C5_amended [noReminderTask, earlyReminderTask]).1,
   (C5_amended [noReminderTask, earlyReminderTask]).2.1,
   (C5_amended [noReminderTask, earlyReminderTask]).2.2 (by
      intro t ht r hr
      fin_cases ht
      · exact Option.noConfusion hr
      · cases hr
        norm_num)⟩

/-- C6, counterexample: resolving the due-today page for a user who has no
`BotUser` row writes one — the store is not the same afterwards. -/
theorem C6_counterexample :
    (dailyTasksTodayGet ⟨[], [], []⟩ 7 0).2.2 ≠ (⟨[], [], []⟩ : Store) := by decide

/-- C6, amended: the due-today resolution never touches the task or
completion tables; the store is fully unchanged whenever the requesting
user already has a `BotUser` row, and otherwise the only write is the
creation of that row. -/
theorem C6_amended : ∀ (s : Store) (uid : ℕ) (today : ℤ),
    (dailyTasksTodayGet s uid today).2.2.dailyTasks = s.dailyTasks ∧
    (dailyTasksTodayGet s uid today).2.2.completions = s.completions ∧
    (uid ∈ s.botUsers → (dailyTasksTodayGet s uid today).2.2 = s) ∧
    (uid ∉ s.botUsers →
      (dailyTasksTodayGet s uid today).2.2.botUsers = s.botUsers ++ [uid]) := by
  intro s uid today
  have h222 : (dailyTasksTodayGet s uid today).2.2 = ensureBotUser s uid := rfl
  rw [h222]
  unfold ensureBotUser
  rcases Decidable.em (uid ∈ s.botUsers) with h | h
  · rw [if_pos h]
    exact ⟨rfl, rfl, fun _ => rfl, fun hn => absurd h hn⟩
  · rw [if_neg h]
    exact ⟨rfl, rfl, fun hm => absurd hm h, fun _ => rfl⟩

/-- C6 witness: a user with an existing row leaves the store untouched; a
user without one appends exactly their row. -/
theorem C6_amended_witness :
    (dailyTasksTodayGet ⟨[7], [], []⟩ 7 0).2.2 = (⟨[7], [], []⟩ : Store) ∧
    (dailyTasksTodayGet ⟨[], [], []⟩ 7 0).2.2.botUsers = [7] :=
  ⟨(C6_amended ⟨[7], [], []⟩ 7 0).2.2.1 (by decide),
   (C6_amended ⟨[], [], []⟩ 7 0).2.2.2 (by decide)⟩

theorem pyRound1_zero : pyRound1 0 = 0 := by
  norm_num [pyRound1, roundHalfEven]

theorem length_scheduledDatesInWindow (days : List PyVal) (a b : ℤ) :
    (scheduledDatesInWindow days a b).length =
    ((Finset.Icc a b).filter (fun d => PyVal.pint (weekday d) ∈ days)).card := by
  unfold scheduledDatesInWindow
  have hnd : ((List.range (b + 1 - a).toNat).map (fun i : ℕ => a + (i : ℤ))).Nodup := by
    refine List.Nodup.map ?_ (List.nodup_range _)
    intro x y h
    simp only at h
    omega
  have h1 : ((List.range (b + 1 - a).toNat).map (fun i : ℕ => a + (i : ℤ))).toFinset =
      Finset.Icc a b := by
    ext x
    simp only [List.mem_toFinset, List.mem_map, List.mem_range, Finset.mem_Icc]
    constructor
    · rintro ⟨i, hi, rfl⟩
      omega
    · intro hx
      exact ⟨(x - a).toNat, by omega, by omega⟩
  rw [← List.toFinset_card_of_nodup
        (hnd.filter (fun d => decide (PyVal.pint (weekday d) ∈ days))),
      List.toFinset_filter, h1]
  congr 1
  apply Finset.filter_congr
  intro x _
  simp

/-- C3, counterexample: with one completion dated 100 days before the
window and a task scheduled on all seven weekdays, the detail view's rate
over the window [today-30, today] is 3.2 (the stale record is counted),
while the spec's windowed formula gives 0 — the code does not restrict C
to the window. -/
theorem C3_counterexample :
    detailViewCompletionRate staleStore everyDayTask 1 0 = 16 / 5 ∧
    specCompletionRate staleStore 1 1 (-30) 0 everyDayTask.scheduled_days = 0 ∧
    (16 / 5 : ℚ) ≠ 0 := by
  have hne : scheduledDatesInWindow everyDayTask.scheduled_days (0 - 30) 0 ≠ [] := by
    decide
  have hlen : (scheduledDatesInWindow everyDayTask.scheduled_days (0 - 30) 0).length = 31 := by
    decide
  have htc : totalCompletions staleStore everyDayTask.id 1 = 1 := by decide
  have hfloor : ⌊(1000 / 31 : ℚ)⌋ = 32 := by norm_num [Int.floor_eq_iff]
  refine ⟨?_, ?_, by norm_num⟩
  · simp only [detailViewCompletionRate]
    rw [if_neg hne, htc, hlen]
    have hq : (10 : ℚ) * (((1 : ℕ) : ℚ) / ((31 : ℕ) : ℚ) * 100) = 1000 / 31 := by
      push_cast
      ring
    simp only [pyRound1, roundHalfEven, hq, hfloor]
    norm_num
  · have hS : ((Finset.Icc (-30 : ℤ) 0).filter
        (fun d => PyVal.pint (weekday d) ∈ everyDayTask.scheduled_days)).card = 31 := by
      decide
    have hC : (staleStore.completions.filter (fun r => decide (r.daily_task = 1) &&
        decide (r.user = 1) && decide ((-30 : ℤ) ≤ r.date) &&
        decide (r.date ≤ (0 : ℤ)))).length = 0 := by decide
    simp only [specCompletionRate, hS, hC]
    norm_num [pyRound1, roundHalfEven]

/-- C3, amended: the detail view's completion rate equals C / S × 100
rounded to one decimal place (ties to even), where S is the number of
calendar dates in [today-30, today] whose weekday is scheduled and C is
`min(30, number of completion records for the task and user over all
time)` — the record count is capped by the 30-row history slice and not
restricted to the window; whenever S = 0 the rate is exactly 0 and no
division is attempted. -/
theorem C3_amended : ∀ (s : Store) (t : DailyTask) (uid : ℕ) (today : ℤ),
    detailViewCompletionRate s t uid today =
      (if ((Finset.Icc (today - 30) today).filter
            (fun d => PyVal.pint (weekday d) ∈ t.scheduled_days)).card = 0 then 0
       else pyRound1 (((min (completionsOf s t.id uid).length 30 : ℕ) : ℚ) /
         (((Finset.Icc (today - 30) today).filter
            (fun d => PyVal.pint (weekday d) ∈ t.scheduled_days)).card : ℚ) * 100)) ∧
    (((Finset.Icc (today - 30) today).filter
        (fun d => PyVal.pint (weekday d) ∈ t.scheduled_days)).card = 0 →
      detailViewCompletionRate s t uid today = 0) := by
  intro s t uid today
  have hlen := length_scheduledDatesInWindow t.scheduled_days (today - 30) today
  have hmain : detailViewCompletionRate s t uid today =
      (if ((Finset.Icc (today - 30) today).filter
            (fun d => PyVal.pint (weekday d) ∈ t.scheduled_days)).card = 0 then 0
       else pyRound1 (((min (completionsOf s t.id uid).length 30 : ℕ) : ℚ) /
         (((Finset.Icc (today - 30) today).filter
            (fun d => PyVal.pint (weekday d) ∈ t.scheduled_days)).card : ℚ) * 100)) := by
    simp only [detailViewCompletionRate, totalCompletions]
    rcases Decidable.em
        (scheduledDatesInWindow t.scheduled_days (today - 30) today = []) with h | h
    · have hc : ((Finset.Icc (today - 30) today).filter
          (fun d => PyVal.pint (weekday d) ∈ t.scheduled_days)).card = 0 := by
        rw [← hlen, h]
        rfl
      rw [if_pos h, if_pos hc]
      exact pyRound1_zero
    · have hc : ((Finset.Icc (today - 30) today).filter
          (fun d => PyVal.pint (weekday d) ∈ t.scheduled_days)).card ≠ 0 := by
        rw [← hlen]
        simpa [List.length_eq_zero] using h
      rw [if_neg h, if_neg hc, ← hlen]
  exact ⟨hmain, fun hc => by rw [hmain, if_pos hc]⟩

/-- C3 witness: a task with no scheduled weekday has S = 0 over any window
and its rate is exactly 0 — no division-by-zero occurs. -/
theorem C3_amended_witness :
    detailViewCompletionRate ⟨[1], [noScheduleTask], []⟩ noScheduleTask 1 0 = 0 :=
  (C3_amended ⟨[1], [noScheduleTask], []⟩ noScheduleTask 1 0).2 (by decide)

end TaskBoard
